import Mathlib

/-
Verification of the kandidatentekort webhook automation
(src/kandidatentekort_auto.py) against its natural-language
specification.  The Python source is shallowly embedded: pure helpers
become Lean functions on `String`/`List`, the side-effecting pipeline
becomes a pure function from an explicit `World` of external-call
outcomes to a result plus a trace of side-effect events.  Python
strings are modelled through their list of code points (`String.data`),
matching Python's code-point based indexing, slicing and `len`.
-/

namespace Kandidatentekort

/-! ## Python string primitives -/

/-- Python slice `s[:n]` (code-point based). -/
def py_take (s : String) (n : Nat) : String := String.mk (s.data.take n)

/-- Python `s.split(c)[0]`: the part of `s` before the first occurrence
of `c`. -/
def py_before (c : Char) (s : String) : String :=
  String.mk (s.data.takeWhile (fun x => x ≠ c))

/-- Index of the first element satisfying `p`, by plain recursion
(mirrors Python `str.find` when combined with the `-1` sentinel). -/
def idx_of? (p : Char → Bool) : List Char → Option Nat
  | [] => none
  | c :: cs => if p c then some 0 else (idx_of? p cs).map (· + 1)

/-- Python `s.find(c)`: index of the first occurrence of `c`, `-1` when
absent. -/
def py_find (s : String) (c : Char) : Int :=
  match idx_of? (fun x => x = c) s.data with
  | some i => (i : Int)
  | none => -1

/-- Python `s.rfind(c)`: index of the last occurrence of `c`, `-1` when
absent (computed from the first occurrence in the reversed list). -/
def py_rfind (s : String) (c : Char) : Int :=
  match idx_of? (fun x => x = c) s.data.reverse with
  | some i => ((s.data.length - 1 - i : Nat) : Int)
  | none => -1

/-- Python slice `s[a:b]` for `0 ≤ a ≤ b` (code-point based). -/
def py_slice (s : String) (a b : Nat) : String :=
  String.mk ((s.data.drop a).take (b - a))

/-- Python `s.strip()`: drop leading and trailing whitespace (list
based so that concrete instances evaluate in the kernel). -/
def py_strip (s : String) : String :=
  String.mk
    (((s.data.dropWhile Char.isWhitespace).reverse.dropWhile
        Char.isWhitespace).reverse)

theorem idx_of_lt_length {p : Char → Bool} :
    ∀ {l : List Char} {i : Nat}, idx_of? p l = some i → i < l.length := by
  intro l
  induction l with
  | nil => intro i h; exact Option.noConfusion h
  | cons c cs ih =>
    intro i h
    simp only [idx_of?] at h
    split at h
    · cases h; simp
    · cases hrec : idx_of? p cs with
      | none => rw [hrec] at h; exact Option.noConfusion h
      | some j =>
        rw [hrec] at h
        injection h with h2
        have h3 : j + 1 = i := h2
        have := ih hrec
        simp only [List.length_cons]
        omega

/-! ## Analysis Client response parsing (C5)

`analyze_vacancy_with_claude` extracts a JSON object from the raw LLM
response text:

    json_start = response_text.find('{')
    json_end = response_text.rfind('}') + 1
    if json_start >= 0 and json_end > json_start:
        analysis = json.loads(response_text[json_start:json_end])
        return analysis
    else:
        return None

and the surrounding try/except returns `None` when `json.loads`
throws.  `json.loads` (including its possible exception) is abstracted
as a function `json_loads : String → Option α`. -/

/-- Embedding of the JSON-extraction step of
`analyze_vacancy_with_claude` (src lines 316-327). -/
def claude_extract_json {α : Type} (json_loads : String → Option α)
    (response_text : String) : Option α :=
  let json_start := py_find response_text '{'
  let json_end := py_rfind response_text '}' + 1
  if json_start ≥ 0 ∧ json_end > json_start then
    json_loads (py_slice response_text json_start.toNat json_end.toNat)
  else
    none

/-- Modelled from the spec's words: "locate the first `{` and the last
`}` in the raw text response and parse that substring as JSON ... if no
valid JSON is found or parsing throws, return no result".  Returns the
substring from the first `{` to the last `}` (inclusive) when both
exist in that order, and nothing otherwise. -/
def spec_first_to_last_brace (s : String) : Option String :=
  match idx_of? (fun x => x = '{') s.data,
        idx_of? (fun x => x = '}') s.data.reverse with
  | some i, some k =>
    let j := s.data.length - 1 - k
    if i ≤ j then some (String.mk ((s.data.drop i).take (j + 1 - i)))
    else none
  | _, _ => none

/-- C5: for every raw LLM response text and every behaviour of the JSON
parser, the analysis client parses exactly the substring from the first
`{` to the last `}` as JSON; when no such substring exists the result
is `none`, and a parser failure (Python exception) also yields `none` —
the result is either the fully parsed value or absent, never partial
(it is `Option`-valued by construction). -/
theorem c5_json_span_parsing {α : Type} (json_loads : String → Option α)
    (s : String) :
    claude_extract_json json_loads s =
      (spec_first_to_last_brace s).bind json_loads := by
  cases hf : idx_of? (fun x => x = '{') s.data with
  | none =>
    cases hr : idx_of? (fun x => x = '}') s.data.reverse with
    | none =>
      simp only [claude_extract_json, spec_first_to_last_brace, py_find,
        py_rfind, hf, hr]
      norm_num
    | some k =>
      simp only [claude_extract_json, spec_first_to_last_brace, py_find,
        py_rfind, hf, hr]
      norm_num
  | some i =>
    cases hr : idx_of? (fun x => x = '}') s.data.reverse with
    | none =>
      simp only [claude_extract_json, spec_first_to_last_brace, py_find,
        py_rfind, hf, hr]
      rw [if_neg (by omega : ¬ ((i : Int) ≥ 0 ∧ (-1 : Int) + 1 > (i : Int)))]
      rfl
    | some k =>
      have hk : k < s.data.length := by
        have h1 := idx_of_lt_length hr
        rwa [List.length_reverse] at h1
      simp only [claude_extract_json, spec_first_to_last_brace, py_find,
        py_rfind, hf, hr]
      by_cases hij : i ≤ s.data.length - 1 - k
      · rw [if_pos hij,
          if_pos (show (i : Int) ≥ 0 ∧
            ((s.data.length - 1 - k : Nat) : Int) + 1 > (i : Int) from
            ⟨by omega, by omega⟩),
          Option.some_bind]
        have ha : ((i : Int)).toNat = i := by omega
        have hb : (((s.data.length - 1 - k : Nat) : Int) + 1).toNat
            = s.data.length - 1 - k + 1 := by omega
        unfold py_slice
        rw [ha, hb]
      · rw [if_neg hij,
          if_neg (show ¬ ((i : Int) ≥ 0 ∧
            ((s.data.length - 1 - k : Nat) : Int) + 1 > (i : Int)) from by
            intro hc
            exact hij (by omega))]
        rfl

/-! ## Document Extractor (C6)

`extract_text_from_file` downloads a URL and extracts text from
PDF/DOCX by magic bytes, content type or URL extension; it fails soft
to `""` on every error.  HTTP and the PDF/DOCX libraries are abstracted
by `ExtractWorld`: an `Except Unit _` result models a Python exception
(`.error`) versus a normal return (`.ok`). -/

/-- Generic sublist (Python `in` on `bytes`/`str`) test. -/
def has_sub {α : Type} [BEq α] (pat : List α) : List α → Bool
  | [] => pat.isEmpty
  | c :: rest => pat.isPrefixOf (c :: rest) || has_sub pat rest

/-- Python `bytes.lower()` on one byte (ASCII only, as in CPython). -/
def byte_lower (b : Nat) : Nat := if 65 ≤ b ∧ b ≤ 90 then b + 32 else b

/-- The bytes of `b"error"`. -/
def error_bytes : List Nat := [101, 114, 114, 111, 114]

/-- `%PDF` magic bytes. -/
def pdf_magic : List Nat := [37, 80, 68, 70]

/-- `PK` ZIP local-file-header magic bytes (DOCX). -/
def pk_magic : List Nat := [80, 75]

/-- OLE compound-file magic bytes of the legacy binary `.doc` format. -/
def ole_magic : List Nat := [208, 207, 17, 224, 161, 177, 26, 225]

/-- An HTTP response as seen by `extract_text_from_file`. -/
structure HttpResponse where
  status : Nat
  content : List Nat
  contentType : String

/-- Outcomes of the external calls made by the extractor.  `httpGet`
models `requests.get` (`.error` = network exception); `pdfPages` models
`PdfReader(...).pages[i].extract_text()` over the whole document
(`.error` = a parse exception anywhere in that loop); `docxParts`
models the DOCX paragraph texts and table cell texts (`.error` = a
parse exception). -/
structure ExtractWorld where
  httpGet : String → Except Unit HttpResponse
  pdfPages : List Nat → Except Unit (List String)
  docxParts : List Nat → Except Unit (List String × List String)
  pdfAvailable : Bool
  docxAvailable : Bool

/-- Embedding of `extract_pdf_text` (src lines 147-169): keep the
non-empty page texts, join with newlines, strip; `""` on any
exception or when PyPDF2 is unavailable. -/
def extract_pdf_text (w : ExtractWorld) (content : List Nat) : String :=
  if ¬ w.pdfAvailable then ""
  else
    match w.pdfPages content with
    | .error _ => ""
    | .ok pages =>
      py_strip (String.intercalate "\n" (pages.filter (fun t => t ≠ "")))

/-- Embedding of `extract_docx_text` (src lines 172-200): paragraph
texts whose strip is non-empty, then table cell texts whose strip is
non-empty, joined with newlines, stripped; `""` on any exception or
when python-docx is unavailable. -/
def extract_docx_text (w : ExtractWorld) (content : List Nat) : String :=
  if ¬ w.docxAvailable then ""
  else
    match w.docxParts content with
    | .error _ => ""
    | .ok (paras, cells) =>
      py_strip (String.intercalate "\n"
        (paras.filter (fun t => py_strip t ≠ "") ++
         cells.filter (fun t => py_strip t ≠ "")))

/-- Embedding of `extract_text_from_file` (src lines 79-144).  The
Typeform bearer-token header only alters the HTTP request, which
`w.httpGet` absorbs; the whole body sits in a try/except returning
`""`, which the `Except`-to-`String` matches reproduce. -/
def extract_text_from_file (w : ExtractWorld) (file_url : String) : String :=
  if file_url = "" then ""
  else
    match w.httpGet file_url with
    | .error _ => ""
    | .ok resp =>
      if resp.status ≠ 200 then ""
      else
        let content := resp.content
        if content.length < 100 ∧ has_sub error_bytes (content.map byte_lower)
        then ""
        else if content.take 4 = pdf_magic then extract_pdf_text w content
        else if content.take 2 = pk_magic then extract_docx_text w content
        else if content.take 8 = ole_magic then ""
        else if has_sub "pdf".data resp.contentType.data then
          extract_pdf_text w content
        else if has_sub "wordprocessingml".data resp.contentType.data ∨
                has_sub "msword".data resp.contentType.data then
          extract_docx_text w content
        else if has_sub ".pdf".data file_url.toLower.data then
          extract_pdf_text w content
        else if has_sub ".docx".data file_url.toLower.data then
          extract_docx_text w content
        else ""

/-- C6: `extract_text_from_file` never propagates an exception (it is
`String`-valued over every world, every exceptional path being caught):
a network error yields `""`, a non-200 response yields `""`, a legacy
binary `.doc` (OLE magic bytes) yields `""` without attempting
extraction, and a PDF/DOCX parse exception yields `""`. -/
theorem c6_extract_fails_soft (w : ExtractWorld) (file_url : String) :
    (w.httpGet file_url = .error () →
      extract_text_from_file w file_url = "") ∧
    (∀ resp, w.httpGet file_url = .ok resp → resp.status ≠ 200 →
      extract_text_from_file w file_url = "") ∧
    (∀ resp, w.httpGet file_url = .ok resp →
      resp.content.take 8 = ole_magic →
      extract_text_from_file w file_url = "") ∧
    (∀ resp, w.httpGet file_url = .ok resp →
      resp.content.take 4 = pdf_magic → w.pdfPages resp.content = .error () →
      extract_text_from_file w file_url = "") ∧
    (∀ resp, w.httpGet file_url = .ok resp →
      resp.content.take 4 ≠ pdf_magic → resp.content.take 2 = pk_magic →
      w.docxParts resp.content = .error () →
      extract_text_from_file w file_url = "") := by
  by_cases hurl : file_url = ""
  · refine ⟨?_, ?_, ?_, ?_, ?_⟩ <;> intros <;>
      simp [extract_text_from_file, hurl]
  · refine ⟨?_, ?_, ?_, ?_, ?_⟩
    · intro hget
      simp [extract_text_from_file, hurl, hget]
    · intro resp hget hstat
      simp [extract_text_from_file, hurl, hget, hstat]
    · intro resp hget hole
      have h4 : resp.content.take 4 = ole_magic.take 4 := by
        rw [← hole, List.take_take]
        norm_num
      have h2 : resp.content.take 2 = ole_magic.take 2 := by
        rw [← hole, List.take_take]
        norm_num
      have hpdf : resp.content.take 4 ≠ pdf_magic := by
        intro h
        rw [h4] at h
        simp [ole_magic, pdf_magic] at h
      have hpk : resp.content.take 2 ≠ pk_magic := by
        intro h
        rw [h2] at h
        simp [ole_magic, pk_magic] at h
      simp only [extract_text_from_file, if_neg hurl, hget]
      split
      · rfl
      · split
        · rfl
        · rfl
    · intro resp hget hpdf herr
      simp only [extract_text_from_file, if_neg hurl, hget]
      split
      · rfl
      · split
        · rfl
        · simp [extract_pdf_text, herr]
    · intro resp hget hpdf hpk herr
      simp only [extract_text_from_file, if_neg hurl, hget]
      split
      · rfl
      · split
        · rfl
        · simp [extract_docx_text, herr]

/-- An `ExtractWorld` in which every external call throws. -/
def failWorld : ExtractWorld where
  httpGet := fun _ => .error ()
  pdfPages := fun _ => .error ()
  docxParts := fun _ => .error ()
  pdfAvailable := true
  docxAvailable := true

/-- Witness for C6 at a concrete input: a network error on a concrete
URL yields the empty string. -/
theorem c6_extract_fails_soft_witness :
    extract_text_from_file failWorld "https://x.example/cv.pdf" = "" :=
  (c6_extract_fails_soft failWorld "https://x.example/cv.pdf").1 rfl

/-! ## Payload Normalizer (C8)

`parse_typeform_data` walks `form_response.answers` dispatching on each
answer's field type, then routes the collected generic short texts
positionally.  An answer is modelled by its type tag and payload;
missing payload keys (Python `dict.get(key, '')`) are the empty string,
and Python truthiness of a string is `≠ ""`. -/

/-- One Typeform answer, by field type.  `contact_info` carries the
composite block's email, first name, last name, phone and company
(empty string = key absent).  `other` stands for any answer the source
skips (unknown type, non-dict entries). -/
inductive Answer where
  | email (e : String)
  | phone_number (p : String)
  | short_text (t : String)
  | long_text (t : String)
  | multiple_choice (label : String)
  | file_upload (url : String)
  | contact_info (e first_name last_name ph company : String)
  | other
  deriving DecidableEq

/-- The normalized submission record (the `result` dict of
`parse_typeform_data`, src lines 734-744). -/
structure Parsed where
  email : String
  voornaam : String
  contact : String
  telefoon : String
  bedrijf : String
  vacature : String
  functie : String
  sector : String
  file_url : String
  deriving DecidableEq

/-- Defaults of the `result` dict (src lines 734-744). -/
def initParsed : Parsed :=
  { email := "", voornaam := "daar", contact := "Onbekend", telefoon := "",
    bedrijf := "Onbekend", vacature := "", functie := "vacature",
    sector := "", file_url := "" }

/-- One iteration of the answer loop of `parse_typeform_data`
(src lines 755-812); the state is the record so far plus the collected
`texts` list of generic short texts. -/
def parse_loop (st : Parsed × List String) (a : Answer) :
    Parsed × List String :=
  let r := st.1
  let ts := st.2
  match a with
  | .email e => ({ r with email := e }, ts)
  | .phone_number p => ({ r with telefoon := p }, ts)
  | .short_text t => (r, ts ++ [t])
  | .long_text t =>
    ({ r with vacature := t,
              functie := if t ≠ "" then py_take (py_before '\n' t) 50
                         else "vacature" }, ts)
  | .multiple_choice label =>
    (if r.sector = "" then { r with sector := label } else r, ts)
  | .file_upload url => ({ r with file_url := url }, ts)
  | .contact_info e f l ph c =>
    let r1 := if e ≠ "" then { r with email := e } else r
    let r2 := if f ≠ "" then { r1 with voornaam := f,
                                       contact := py_strip (f ++ " " ++ l) }
              else r1
    let r3 := if ph ≠ "" then { r2 with telefoon := ph } else r2
    let r4 := if c ≠ "" then { r3 with bedrijf := c } else r3
    (r4, ts)
  | .other => (r, ts)

/-- The positional short-text routing after the loop (src lines
814-822): `texts[0]` fills `voornaam`/`contact` when `voornaam` is
still falsy or the default, `texts[0] + " " + texts[1]` overwrites
`contact` whenever two texts exist, and `texts[2]` fills `bedrijf`
when it is still falsy or the default. -/
def apply_texts (r : Parsed) : List String → Parsed
  | [] => r
  | t1 :: rest =>
    let r1 := if r.voornaam = "" ∨ r.voornaam = "daar" then
                { r with voornaam := t1, contact := t1 }
              else r
    let r2 := match rest with
      | t2 :: _ => { r1 with contact := py_strip (t1 ++ " " ++ t2) }
      | [] => r1
    match rest with
    | _ :: t3 :: _ =>
      if r2.bedrijf = "" ∨ r2.bedrijf = "Onbekend" then
        { r2 with bedrijf := t3 }
      else r2
    | _ => r2

/-- Embedding of `parse_typeform_data` (src lines 730-829).  The
try/except around the loop only matters for malformed payload shapes,
which the `Answer` type rules out. -/
def parse_typeform_data (answers : List Answer) : Parsed :=
  let st := answers.foldl parse_loop (initParsed, [])
  apply_texts st.1 st.2

/-- Counterexample to C8 at a concrete input: an individually-tagged
`email` answer listed after the composite contact block overwrites the
block's email (last writer wins, not block priority), and the first two
generic short texts overwrite the block's full name. -/
theorem c8_contact_block_priority_counterexample :
    (parse_typeform_data
      [Answer.contact_info "a@b.nl" "Jan" "Jansen" "0612345678" "Acme BV",
       Answer.email "x@y.nl"]).email = "x@y.nl" ∧
    (parse_typeform_data
      [Answer.contact_info "a@b.nl" "Jan" "Jansen" "0612345678" "Acme BV",
       Answer.email "x@y.nl"]).email ≠ "a@b.nl" ∧
    (parse_typeform_data
      [Answer.contact_info "a@b.nl" "Jan" "Jansen" "0612345678" "Acme BV",
       Answer.short_text "Piet", Answer.short_text "Peters"]).contact
      = "Piet Peters" ∧
    (parse_typeform_data
      [Answer.contact_info "a@b.nl" "Jan" "Jansen" "0612345678" "Acme BV",
       Answer.short_text "Piet", Answer.short_text "Peters"]).contact
      ≠ "Jan Jansen" := by
  refine ⟨rfl, by decide, rfl, by decide⟩

/-- C8 as amended: the contact block's first-name and company win over
positional short texts (those only fill stil-default fields), and its
email/phone win over individually-tagged answers appearing earlier in
the list; but the full-name `contact` is overwritten by the first two
generic short texts whenever two exist.  Without a contact block, the
first three generic short texts are routed, in order, to first name,
full-name/contact, and company. -/
theorem c8_amended_routing (e f l ph c t1 t2 t3 : String)
    (hf1 : f ≠ "") (hf2 : f ≠ "daar") (hc1 : c ≠ "") (hc2 : c ≠ "Onbekend")
    (he : e ≠ "") (hph : ph ≠ "") :
    (let r := parse_typeform_data
      [Answer.email "old@old.nl", Answer.phone_number "000",
       Answer.short_text t1, Answer.short_text t2, Answer.short_text t3,
       Answer.contact_info e f l ph c]
     r.email = e ∧ r.voornaam = f ∧ r.telefoon = ph ∧ r.bedrijf = c ∧
       r.contact = py_strip (t1 ++ " " ++ t2)) ∧
    (let r2 := parse_typeform_data
      [Answer.email e, Answer.short_text t1, Answer.short_text t2,
       Answer.short_text t3]
     r2.voornaam = t1 ∧ r2.contact = py_strip (t1 ++ " " ++ t2) ∧
       r2.bedrijf = t3) := by
  constructor
  · simp only [parse_typeform_data, List.foldl, parse_loop, apply_texts,
      initParsed]
    simp [he, hf1, hph, hc1, hf2, hc2]
  · simp only [parse_typeform_data, List.foldl, parse_loop, apply_texts,
      initParsed]
    simp

/-- Witness for C8-as-amended at concrete field values. -/
theorem c8_amended_routing_witness :
    (let r := parse_typeform_data
      [Answer.email "old@old.nl", Answer.phone_number "000",
       Answer.short_text "Piet", Answer.short_text "Peters",
       Answer.short_text "Bouwbedrijf", Answer.contact_info "a@b.nl" "Jan"
         "Jansen" "0612345678" "Acme BV"]
     r.email = "a@b.nl" ∧ r.voornaam = "Jan" ∧ r.telefoon = "0612345678" ∧
       r.bedrijf = "Acme BV" ∧
       r.contact = py_strip ("Piet" ++ " " ++ "Peters")) ∧
    (let r2 := parse_typeform_data
      [Answer.email "a@b.nl", Answer.short_text "Piet",
       Answer.short_text "Peters", Answer.short_text "Bouwbedrijf"]
     r2.voornaam = "Piet" ∧
       r2.contact = py_strip ("Piet" ++ " " ++ "Peters") ∧
       r2.bedrijf = "Bouwbedrijf") :=
  c8_amended_routing "a@b.nl" "Jan" "Jansen" "0612345678" "Acme BV"
    "Piet" "Peters" "Bouwbedrijf" (by decide) (by decide) (by decide)
    (by decide) (by decide) (by decide)

/-! ## Pipeline Orchestrator: the `/webhook/typeform` handler

`typeform_webhook` is embedded as a pure function from a `World`
(the outcomes of all external calls: SMTP, file extraction, Claude,
Pipedrive) and the parsed answers to the HTTP result plus an ordered
trace of attempted side effects.  API tokens are taken as configured
(the claims concern the pipeline logic, not missing credentials). -/

/-- Pipedrive target pipeline (src line 54). -/
def PIPELINE_ID : Nat := 4

/-- Pipedrive intake/gating stage (src line 55). -/
def STAGE_ID : Nat := 21

/-- A parsed Claude analysis, with the JSON fields read by the
pipeline; `overall_score` is kept as its rendered string. -/
structure Analysis where
  overall_score : String
  score_section : String
  top_3_improvements : List String
  improved_text : String
  bonus_tips : List String
  deriving DecidableEq

/-- An open Pipedrive deal as returned by `GET /persons/{id}/deals`. -/
structure PDDeal where
  id : Nat
  pipeline_id : Nat
  stage_id : Nat
  org_id : Option Nat
  deriving DecidableEq

/-- One attempted external side effect of the webhook handler, in
order. -/
inductive Event where
  | confirmEmail (dest : String)
  | fileDownload (url : String)
  | llmCall (text : String)
  | analysisEmail (dest : String)
  | crmFindPerson (email : String)
  | crmGetDeals (personId pipelineId : Nat)
  | crmUpdateDeal (dealId : Nat) (title : String)
  | crmCreateOrg (name : String)
  | crmCreatePerson (name email phone : String)
  | crmCreateDeal (title : String)
  | crmAddNote (dealId : Nat) (content : String)
  deriving DecidableEq

/-- Events that hit the CRM. -/
def isCrmEvent : Event → Bool
  | .confirmEmail _ => false
  | .fileDownload _ => false
  | .llmCall _ => false
  | .analysisEmail _ => false
  | _ => true

/-- Events that call the LLM. -/
def isLlmCall : Event → Bool
  | .llmCall _ => true
  | _ => false

/-- Outcomes of the webhook handler's external calls: `extractResult`
is what `extract_text_from_file` returns for a URL, `analyze` what
`analyze_vacancy_with_claude` returns, `findPerson` what
`find_person_by_email` returns, `personOpenDeals` the open deals the
CRM returns for a person (all pipelines), and the `create*` fields the
ids the CRM hands back on creation (`none` = the call failed). -/
structure World where
  confirmOk : Bool
  extractResult : String → String
  analyze : String → String → String → Option Analysis
  analysisEmailOk : Bool
  findPerson : String → Option Nat
  personOpenDeals : Nat → List PDDeal
  createOrgId : Option Nat
  createPersonId : Option Nat
  createDealId : Option Nat

/-- The handler's HTTP result: `rejected` is the 400 response with the
partially-parsed submission, `ok` the 200 response body fields. -/
inductive WebhookResult where
  | rejected (parsed : Parsed)
  | ok (confirmation_sent analysis_sent : Bool)
       (org_id person_id deal_id : Option Nat)
  deriving DecidableEq

/-- HTTP status code of a webhook result. -/
def http_status : WebhookResult → Nat
  | .rejected _ => 400
  | .ok .. => 200

/-- The vacancy text used downstream (src lines 1068-1079): the
extracted file text when a file was uploaded and extraction yielded
more than 50 characters, else the raw text field. -/
def effective_vacancy (w : World) (p : Parsed) : String :=
  if p.file_url ≠ "" then
    let extracted := w.extractResult p.file_url
    if extracted ≠ "" ∧ 50 < extracted.length then extracted else p.vacature
  else p.vacature

/-- The `analysis` variable of the handler (src lines 1082-1085):
`none` both when the length gate skips the call and when Claude
fails. -/
def analysis_result (w : World) (p : Parsed) : Option Analysis :=
  let vt := effective_vacancy w p
  if vt ≠ "" ∧ 50 < vt.length then w.analyze vt p.bedrijf p.sector
  else none

/-- Events of the analysis block (src lines 1082-1087): the LLM call
when the gate passes, then the report email when a result came back. -/
def analysis_events (w : World) (p : Parsed) : List Event :=
  let vt := effective_vacancy w p
  if vt ≠ "" ∧ 50 < vt.length then
    match w.analyze vt p.bedrijf p.sector with
    | some _ => [.llmCall vt, .analysisEmail p.email]
    | none => [.llmCall vt]
  else []

/-- The analysis summary stored in CRM notes (src lines 1090-1099);
the rewritten text is truncated to its first 1500 characters. -/
def build_analysis_summary (a : Analysis) : String :=
  "SCORE: " ++ a.overall_score ++ "/10\n" ++ a.score_section ++
  "\n\nTOP 3 VERBETERPUNTEN:\n" ++
  String.intercalate "\n"
    (a.top_3_improvements.map (fun imp => "- " ++ imp)) ++
  "\n\nVERBETERDE TEKST:\n" ++ py_take a.improved_text 1500

/-- The `analysis_summary` variable (src lines 1090-1099): `""` when
there is no analysis. -/
def analysis_summary (w : World) (p : Parsed) : String :=
  match analysis_result w p with
  | some a => build_analysis_summary a
  | none => ""

/-- The deal title used on both the create and the update path
(src lines 1122 and 1132). -/
def deal_title (p : Parsed) : String :=
  "Vacature Analyse - " ++ p.functie ++ " - " ++ p.bedrijf

/-- Note parts at deal creation (src lines 906-913): vacancy text
truncated to 2000 characters, file URL, analysis summary — each only
when non-empty. -/
def create_note_parts (vacature file_url analysis : String) : List String :=
  (if vacature ≠ "" then ["📋 VACATURE:\n" ++ py_take vacature 2000]
   else []) ++
  (if file_url ≠ "" then ["📎 BESTAND:\n" ++ file_url] else []) ++
  (if analysis ≠ "" then ["🤖 ANALYSE:\n" ++ analysis] else [])

/-- The note content posted at deal creation (src line 921). -/
def create_note (vacature file_url analysis : String) : String :=
  String.intercalate "\n\n" (create_note_parts vacature file_url analysis)

/-- Note parts on the update path (src lines 1005-1012): an update
header, then the same three optional parts. -/
def update_note_parts (vacature file_url analysis : String) : List String :=
  ["🔄 UPDATE VIA TYPEFORM FORMULIER"] ++
  create_note_parts vacature file_url analysis

/-- The note content posted on the update path (src line 1020). -/
def update_note (vacature file_url analysis : String) : String :=
  String.intercalate "\n\n" (update_note_parts vacature file_url analysis)

/-- Embedding of `get_person_deals_in_pipeline` (src lines 965-986):
filter the person's open deals by the target pipeline id (the stage is
not consulted). -/
def get_person_deals_in_pipeline (deals : List PDDeal) (pipeline_id : Nat) :
    List PDDeal :=
  deals.filter (fun d => d.pipeline_id == pipeline_id)

/-- Outcome of the CRM block of the handler. -/
structure CrmOutcome where
  org_id : Option Nat
  person_id : Option Nat
  deal_id : Option Nat
  updated_existing : Bool
  events : List Event

/-- The create path (src lines 1128-1139 with
`create_pipedrive_organization`, `create_pipedrive_person`,
`create_pipedrive_deal`): the organization is only created for a
non-empty, non-placeholder company name; the person only when no
existing person was found; the deal note only when the deal was
created and there is note content. -/
def crm_create (w : World) (p : Parsed) (vt summary title : String)
    (existing : Option Nat) (evs : List Event) : CrmOutcome :=
  let orgStep : Option Nat × List Event :=
    if p.bedrijf ≠ "" ∧ p.bedrijf ≠ "Onbekend" then
      (w.createOrgId, [Event.crmCreateOrg p.bedrijf])
    else (none, [])
  let personStep : Option Nat × List Event :=
    match existing with
    | some pid => (some pid, [])
    | none => (w.createPersonId,
               [Event.crmCreatePerson p.contact p.email p.telefoon])
  let dealStep : Option Nat × List Event :=
    match w.createDealId with
    | some did =>
      (some did,
       if create_note_parts vt p.file_url summary ≠ [] then
         [Event.crmAddNote did (create_note vt p.file_url summary)]
       else [])
    | none => (none, [])
  { org_id := orgStep.1, person_id := personStep.1, deal_id := dealStep.1,
    updated_existing := false,
    events := evs ++ orgStep.2 ++ personStep.2 ++
      [Event.crmCreateDeal title] ++ dealStep.2 }

/-- The CRM block of the handler (src lines 1101-1139): look the
person up by email; when found, fetch their open deals in the target
pipeline and update the first one (title + appended note) regardless
of its stage; otherwise create organization/person/deal. -/
def crm_sync (w : World) (p : Parsed) : CrmOutcome :=
  let vt := effective_vacancy w p
  let summary := analysis_summary w p
  let title := deal_title p
  match w.findPerson p.email with
  | some pid =>
    let deals := get_person_deals_in_pipeline (w.personOpenDeals pid)
      PIPELINE_ID
    match deals with
    | d :: _ =>
      { org_id := d.org_id, person_id := some pid, deal_id := some d.id,
        updated_existing := true,
        events := [Event.crmFindPerson p.email,
                   Event.crmGetDeals pid PIPELINE_ID,
                   Event.crmUpdateDeal d.id title,
                   Event.crmAddNote d.id (update_note vt p.file_url summary)] }
    | [] =>
      crm_create w p vt summary title (some pid)
        [Event.crmFindPerson p.email, Event.crmGetDeals pid PIPELINE_ID]
  | none =>
    crm_create w p vt summary title none [Event.crmFindPerson p.email]

/-- Embedding of the `/webhook/typeform` handler (src lines
1044-1154): parse, validate the email, then confirmation email, file
extraction, analysis + report email, CRM sync, in that order. -/
def typeform_webhook (w : World) (answers : List Answer) :
    WebhookResult × List Event :=
  let p := parse_typeform_data answers
  if p.email = "" ∨ ¬ p.email.data.contains '@' then
    (.rejected p, [])
  else
    let analysis_sent := match analysis_result w p with
      | some _ => w.analysisEmailOk
      | none => false
    let c := crm_sync w p
    (.ok w.confirmOk analysis_sent c.org_id c.person_id c.deal_id,
     [Event.confirmEmail p.email] ++
     (if p.file_url ≠ "" then [Event.fileDownload p.file_url] else []) ++
     analysis_events w p ++ c.events)

/-! ## Webhook trace lemmas -/

/-- Events of the create path are all CRM events (given the prefix
passed in is). -/
theorem crm_create_events_crm (w : World) (p : Parsed)
    (vt summary title : String) (existing : Option Nat) (evs : List Event)
    (hevs : ∀ e ∈ evs, isCrmEvent e = true) :
    ∀ e ∈ (crm_create w p vt summary title existing evs).events,
      isCrmEvent e = true := by
  intro e he
  simp only [crm_create, List.mem_append] at he
  rcases he with ((((h | h) | h) | h) | h)
  · exact hevs e h
  · revert h
    split <;> intro h <;> simp at h
    subst h
    rfl
  · revert h
    rcases existing with _ | pid <;> intro h <;> simp at h
    subst h
    rfl
  · simp at h
    subst h
    rfl
  · revert h
    cases hdid : w.createDealId with
    | none => intro h; simp at h
    | some did =>
      intro h
      simp at h
      rcases h with ⟨-, h⟩
      subst h
      rfl

/-- Every event of the CRM block is a CRM event. -/
theorem crm_sync_events_crm (w : World) (p : Parsed) :
    ∀ e ∈ (crm_sync w p).events, isCrmEvent e = true := by
  intro e he
  rcases hw : w.findPerson p.email with _ | pid
  · simp only [crm_sync, hw] at he
    exact crm_create_events_crm w p _ _ _ none _
      (by intro x hx; simp at hx; subst hx; rfl) e he
  · simp only [crm_sync, hw] at he
    rcases hd : get_person_deals_in_pipeline (w.personOpenDeals pid)
        PIPELINE_ID with _ | ⟨d, rest⟩
    · simp only [hd] at he
      exact crm_create_events_crm w p _ _ _ (some pid) _
        (by intro x hx; simp at hx; rcases hx with h | h <;> subst h <;> rfl)
        e he
    · simp only [hd] at he
      simp at he
      rcases he with h | h | h | h <;> subst h <;> rfl

/-- Events of the analysis block are never CRM events. -/
theorem analysis_events_not_crm (w : World) (p : Parsed) :
    ∀ e ∈ analysis_events w p, isCrmEvent e = false := by
  intro e he
  simp only [analysis_events] at he
  split at he
  · cases hw : w.analyze (effective_vacancy w p) p.bedrijf p.sector with
    | some a =>
      rw [hw] at he
      simp at he
      rcases he with h | h <;> subst h <;> rfl
    | none =>
      rw [hw] at he
      simp at he
      subst he
      rfl
  · simp at he

/-- The report email occurs in the analysis block exactly when the
analysis produced a result, and only to the parsed email address. -/
theorem analysisEmail_mem_analysis_events (w : World) (p : Parsed)
    (x : String) :
    Event.analysisEmail x ∈ analysis_events w p ↔
      (x = p.email ∧ ∃ a, analysis_result w p = some a) := by
  simp only [analysis_events, analysis_result]
  split
  · cases hw : w.analyze (effective_vacancy w p) p.bedrijf p.sector with
    | some a => simp [hw]
    | none => simp [hw]
  · simp

/-- The analysis block contains an LLM call exactly when the length
gate passes. -/
theorem any_llm_analysis_events (w : World) (p : Parsed) :
    (analysis_events w p).any isLlmCall = true ↔
      (effective_vacancy w p ≠ "" ∧
        50 < (effective_vacancy w p).length) := by
  simp only [analysis_events]
  split
  · rename_i hcond
    cases hw : w.analyze (effective_vacancy w p) p.bedrijf p.sector <;>
      simp [isLlmCall, hcond]
  · rename_i hcond
    simp [hcond]

/-- A CRM event is never an LLM call. -/
theorem isCrm_not_llm (e : Event) (h : isCrmEvent e = true) :
    isLlmCall e = false := by
  cases e <;> simp_all [isCrmEvent, isLlmCall]

/-- In `A ++ B` with all of `A` non-CRM and all of `B` CRM, anything
positioned after a CRM event is itself a CRM event. -/
theorem crm_tail_positions {A B : List Event}
    (hA : ∀ x ∈ A, isCrmEvent x = false) (hB : ∀ x ∈ B, isCrmEvent x = true)
    {i j : Nat} {e y : Event} (hij : i < j)
    (hi : (A ++ B).get? i = some e) (he : isCrmEvent e = true)
    (hj : (A ++ B).get? j = some y) : isCrmEvent y = true := by
  have hiA : A.length ≤ i := by
    by_contra hlt
    push_neg at hlt
    rw [List.get?_append hlt] at hi
    have hmem : e ∈ A := List.get?_mem hi
    have hfalse := hA e hmem
    rw [he] at hfalse
    exact Bool.noConfusion hfalse
  have hjB : A.length ≤ j := le_trans hiA (le_of_lt hij)
  rw [List.get?_append_right hjB] at hj
  exact hB y (List.get?_mem hj)

/-- A `World` in which every external call fails or returns nothing. -/
def wNone : World where
  confirmOk := true
  extractResult := fun _ => ""
  analyze := fun _ _ _ => none
  analysisEmailOk := false
  findPerson := fun _ => none
  personOpenDeals := fun _ => []
  createOrgId := none
  createPersonId := none
  createDealId := none

/-! ## C1: invalid email rejects with no side effects -/

/-- C1: when the normalized submission has no email containing `@`,
the handler answers 400 with the partially-parsed submission and the
side-effect trace is empty: no confirmation email, no file download,
no LLM call, no CRM create of organization, person, deal or note. -/
theorem c1_invalid_email_rejected (w : World) (answers : List Answer)
    (h : (parse_typeform_data answers).email = "" ∨
      ¬ (parse_typeform_data answers).email.data.contains '@') :
    typeform_webhook w answers =
      (.rejected (parse_typeform_data answers), []) ∧
    http_status (typeform_webhook w answers).1 = 400 := by
  constructor
  · simp only [typeform_webhook, if_pos h]
  · simp only [typeform_webhook, if_pos h, http_status]

/-- Witness for C1: a payload with only a long text answer parses to an
empty email and is rejected with an empty trace. -/
theorem c1_invalid_email_rejected_witness :
    typeform_webhook wNone [Answer.long_text "alleen een vacaturetekst"] =
      (.rejected (parse_typeform_data
        [Answer.long_text "alleen een vacaturetekst"]), []) ∧
    http_status (typeform_webhook wNone
      [Answer.long_text "alleen een vacaturetekst"]).1 = 400 :=
  c1_invalid_email_rejected wNone [Answer.long_text "alleen een vacaturetekst"]
    (Or.inl rfl)

/-! ## C7: confirmation email first, independent of later steps -/

/-- C7: for every world (every possible outcome of the later steps)
and every submission passing email validation, the confirmation email
attempt is the first event of the trace — before file extraction, the
LLM call and all CRM calls — so whether it is attempted does not
depend on any later step's outcome. -/
theorem c7_confirmation_first (w : World) (answers : List Answer)
    (h : ¬ ((parse_typeform_data answers).email = "" ∨
      ¬ (parse_typeform_data answers).email.data.contains '@')) :
    (typeform_webhook w answers).2.head? =
      some (Event.confirmEmail (parse_typeform_data answers).email) := by
  simp only [typeform_webhook, if_neg h]
  rfl

/-- Witness for C7: a minimal valid payload. -/
theorem c7_confirmation_first_witness :
    (typeform_webhook wNone [Answer.email "a@b.nl"]).2.head? =
      some (Event.confirmEmail
        (parse_typeform_data [Answer.email "a@b.nl"]).email) :=
  c7_confirmation_first wNone [Answer.email "a@b.nl"] (by decide)

/-! ## C10: CRM note truncation -/

theorem py_take_take (s : String) (n : Nat) :
    py_take (py_take s n) n = py_take s n := by
  simp [py_take, List.take_take]

theorem py_take_eq_empty_iff (s : String) :
    py_take s 2000 = "" ↔ s = "" := by
  constructor
  · intro h
    have hdata : (py_take s 2000).data = ("" : String).data := by rw [h]
    simp only [py_take] at hdata
    have : s.data.take 2000 = [] := hdata
    rcases List.take_eq_nil_iff.mp this with h0 | h0
    · exact absurd h0 (by norm_num)
    · cases s
      simp_all
  · intro h
    subst h
    rfl

/-- C10: every CRM note written at deal creation or on the deal-update
path stores at most the first 2000 characters of the vacancy text (the
note is unchanged when the vacancy is truncated to 2000 characters,
and that prefix has length at most 2000), and the analysis summary
embedded in notes carries at most the first 1500 characters of the
rewritten text — the stored blob is a truncation, not the full
analysis that was emailed. -/
theorem c10_note_truncation (v f a : String) (an : Analysis) :
    create_note v f a = create_note (py_take v 2000) f a ∧
    update_note v f a = update_note (py_take v 2000) f a ∧
    (py_take v 2000).length ≤ 2000 ∧
    build_analysis_summary an = build_analysis_summary
      { an with improved_text := py_take an.improved_text 1500 } ∧
    (py_take an.improved_text 1500).length ≤ 1500 := by
  have hparts : create_note_parts v f a
      = create_note_parts (py_take v 2000) f a := by
    by_cases hv : v = ""
    · subst hv
      rfl
    · have hv2 : py_take v 2000 ≠ "" := by
        rw [ne_eq, py_take_eq_empty_iff]
        exact hv
      simp [create_note_parts, hv, hv2, py_take_take]
  refine ⟨?_, ?_, ?_, ?_, ?_⟩
  · rw [create_note, create_note, hparts]
  · rw [update_note, update_note, update_note_parts, update_note_parts,
      hparts]
  · show (v.data.take 2000).length ≤ 2000
    rw [List.length_take]
    omega
  · have h15 : py_take (py_take an.improved_text 1500) 1500
        = py_take an.improved_text 1500 := py_take_take _ _
    simp [build_analysis_summary, h15]
  · show (an.improved_text.data.take 1500).length ≤ 1500
    rw [List.length_take]
    omega

/-! ## C2: no manual-review gate exists -/

/-- A sample parsed analysis. -/
def a0 : Analysis :=
  { overall_score := "7.2", score_section := "Duidelijkheid: 6/10",
    top_3_improvements := ["Betere titel"],
    improved_text := "Verbeterde tekst", bonus_tips := ["Tip"] }

/-- A 60-character vacancy text (passes the length gate). -/
def sixty_chars : String :=
  "012345678901234567890123456789012345678901234567890123456789"

/-- A world in which the LLM succeeds and CRM lookups find nothing. -/
def wA : World where
  confirmOk := true
  extractResult := fun _ => ""
  analyze := fun _ _ _ => some a0
  analysisEmailOk := true
  findPerson := fun _ => none
  personOpenDeals := fun _ => []
  createOrgId := none
  createPersonId := some 1
  createDealId := some 2

/-- A valid payload whose vacancy text passes the length gate. -/
def exA : List Answer :=
  [Answer.email "a@b.nl", Answer.long_text sixty_chars]

/-- Counterexample to C2: the handler has no manual-review flag — on a
concrete successful analysis the report email is sent (third event),
before any CRM call, contradicting both "with the default flag the
report email is not sent" and "the report email is sent after CRM
sync". -/
theorem c2_manual_review_counterexample :
    Event.analysisEmail "a@b.nl" ∈ (typeform_webhook wA exA).2 ∧
    (typeform_webhook wA exA).2.take 4 =
      [Event.confirmEmail "a@b.nl", Event.llmCall sixty_chars,
       Event.analysisEmail "a@b.nl", Event.crmFindPerson "a@b.nl"] ∧
    (typeform_webhook wA exA).1 =
      .ok true true none (some 1) (some 2) := by
  have h4 : (typeform_webhook wA exA).2.take 4 =
      [Event.confirmEmail "a@b.nl", Event.llmCall sixty_chars,
       Event.analysisEmail "a@b.nl", Event.crmFindPerson "a@b.nl"] := rfl
  refine ⟨?_, h4, rfl⟩
  apply List.take_subset 4
  rw [h4]
  simp

/-- C2 as amended: the handler applies no manual-review gate — for
every world and every submission passing validation, the report email
is sent exactly when the analysis returned a result, and it is sent
before CRM sync: no report-email event ever follows any CRM event in
the trace. -/
theorem c2_amended_no_review_gate (w : World) (answers : List Answer)
    (h : ¬ ((parse_typeform_data answers).email = "" ∨
      ¬ (parse_typeform_data answers).email.data.contains '@')) :
    (Event.analysisEmail (parse_typeform_data answers).email ∈
        (typeform_webhook w answers).2 ↔
      ∃ a, analysis_result w (parse_typeform_data answers) = some a) ∧
    (∀ i j e x, i < j → isCrmEvent e = true →
      (typeform_webhook w answers).2.get? i = some e →
      (typeform_webhook w answers).2.get? j ≠
        some (Event.analysisEmail x)) := by
  have htr : (typeform_webhook w answers).2
      = ([Event.confirmEmail (parse_typeform_data answers).email] ++
         (if (parse_typeform_data answers).file_url ≠ "" then
           [Event.fileDownload (parse_typeform_data answers).file_url]
          else []) ++
         analysis_events w (parse_typeform_data answers)) ++
        (crm_sync w (parse_typeform_data answers)).events := by
    simp only [typeform_webhook]
    rw [if_neg h]
  have hA : ∀ x ∈ ([Event.confirmEmail (parse_typeform_data answers).email] ++
      (if (parse_typeform_data answers).file_url ≠ "" then
        [Event.fileDownload (parse_typeform_data answers).file_url]
       else []) ++
      analysis_events w (parse_typeform_data answers)),
      isCrmEvent x = false := by
    intro x hx
    simp only [List.mem_append] at hx
    rcases hx with (hx | hx) | hx
    · simp at hx
      subst hx
      rfl
    · revert hx
      split <;> intro hx <;> simp at hx
      subst hx
      rfl
    · exact analysis_events_not_crm w _ x hx
  constructor
  · rw [htr]
    have h3 : Event.analysisEmail (parse_typeform_data answers).email ∉
        (crm_sync w (parse_typeform_data answers)).events := by
      intro hm
      have := crm_sync_events_crm w _ _ hm
      simp [isCrmEvent] at this
    simp only [List.mem_append]
    rw [analysisEmail_mem_analysis_events]
    constructor
    · intro hmem
      rcases hmem with ((hx | hx) | hx) | hx
      · simp at hx
      · revert hx
        split <;> intro hx <;> simp at hx
      · exact hx.2
      · exact absurd hx h3
    · intro ha
      exact Or.inl (Or.inr ⟨rfl, ha⟩)
  · intro i j e x hij he hi hj
    rw [htr] at hi hj
    have hy := crm_tail_positions hA (crm_sync_events_crm w _) hij hi he hj
    simp [isCrmEvent] at hy

/-- Witness for C2-as-amended at a concrete world and payload in which
the analysis succeeds. -/
theorem c2_amended_no_review_gate_witness :
    Event.analysisEmail (parse_typeform_data exA).email ∈
        (typeform_webhook wA exA).2 ↔
      ∃ a, analysis_result wA (parse_typeform_data exA) = some a :=
  (c2_amended_no_review_gate wA exA (by decide)).1

/-! ## C3: open deals are reused regardless of stage -/

/-- Deal-creation events. -/
def isCreateDealEv : Event → Bool
  | .crmCreateDeal _ => true
  | _ => false

/-- Deal-update events. -/
def isUpdateDealEv : Event → Bool
  | .crmUpdateDeal _ _ => true
  | _ => false

/-- A non-CRM event is neither a deal creation nor a deal update. -/
theorem notCrm_not_deal (e : Event) (h : isCrmEvent e = false) :
    isCreateDealEv e = false ∧ isUpdateDealEv e = false := by
  cases e <;> simp_all [isCrmEvent, isCreateDealEv, isUpdateDealEv]

/-- The create path never emits a deal-update event (given the prefix
passed in has none). -/
theorem crm_create_events_not_update (w : World) (p : Parsed)
    (vt summary title : String) (existing : Option Nat) (evs : List Event)
    (hevs : ∀ e ∈ evs, isUpdateDealEv e = false) :
    ∀ e ∈ (crm_create w p vt summary title existing evs).events,
      isUpdateDealEv e = false := by
  intro e he
  simp only [crm_create, List.mem_append] at he
  rcases he with ((((h | h) | h) | h) | h)
  · exact hevs e h
  · revert h
    split <;> intro h <;> simp at h
    subst h
    rfl
  · revert h
    rcases existing with _ | pid <;> intro h <;> simp at h
    subst h
    rfl
  · simp at h
    subst h
    rfl
  · revert h
    cases hdid : w.createDealId with
    | none => intro h; simp at h
    | some did =>
      intro h
      simp at h
      rcases h with ⟨-, h⟩
      subst h
      rfl

/-- An open deal in stage 22 (not the configured intake stage 21). -/
def dStage22 : PDDeal :=
  { id := 42, pipeline_id := 4, stage_id := 22, org_id := some 9 }

/-- A world whose CRM returns an existing person whose only open deal
in the target pipeline sits in stage 22. -/
def wB : World where
  confirmOk := true
  extractResult := fun _ => ""
  analyze := fun _ _ _ => none
  analysisEmailOk := false
  findPerson := fun _ => some 7
  personOpenDeals := fun _ => [dStage22]
  createOrgId := none
  createPersonId := none
  createDealId := none

/-- A minimal valid payload. -/
def exB : List Answer := [Answer.email "a@b.nl"]

/-- Counterexample to C3: the existing open deal sits in stage 22, not
the configured intake stage 21, yet the handler updates it (and
creates no new deal) — the stage is never consulted. -/
theorem c3_stage_check_counterexample :
    dStage22.stage_id ≠ STAGE_ID ∧
    Event.crmUpdateDeal 42 (deal_title (parse_typeform_data exB)) ∈
      (typeform_webhook wB exB).2 ∧
    (typeform_webhook wB exB).2.any isCreateDealEv = false ∧
    (typeform_webhook wB exB).1 = .ok true false (some 9) (some 7) (some 42)
    := by
  refine ⟨by decide, ?_, rfl, rfl⟩
  have htr : (typeform_webhook wB exB).2 =
      [Event.confirmEmail "a@b.nl", Event.crmFindPerson "a@b.nl",
       Event.crmGetDeals 7 PIPELINE_ID,
       Event.crmUpdateDeal 42 (deal_title (parse_typeform_data exB)),
       Event.crmAddNote 42 (update_note "" "" "")] := rfl
  rw [htr]
  simp

/-- C3 as amended: whenever the submitter's email matches an existing
CRM person with at least one open deal in the target pipeline, the
first such deal is updated — regardless of its stage, which is never
compared to the intake stage — and no new deal is created; a new deal
is created exactly when the person is unknown or has no open deal in
the pipeline. -/
theorem c3_amended_deal_reuse (w : World) (answers : List Answer)
    (h : ¬ ((parse_typeform_data answers).email = "" ∨
      ¬ (parse_typeform_data answers).email.data.contains '@')) :
    (∀ pid d rest,
      w.findPerson (parse_typeform_data answers).email = some pid →
      get_person_deals_in_pipeline (w.personOpenDeals pid) PIPELINE_ID
        = d :: rest →
      Event.crmUpdateDeal d.id (deal_title (parse_typeform_data answers)) ∈
        (typeform_webhook w answers).2 ∧
      (typeform_webhook w answers).2.any isCreateDealEv = false) ∧
    (∀ pid,
      w.findPerson (parse_typeform_data answers).email = some pid →
      get_person_deals_in_pipeline (w.personOpenDeals pid) PIPELINE_ID
        = [] →
      Event.crmCreateDeal (deal_title (parse_typeform_data answers)) ∈
        (typeform_webhook w answers).2 ∧
      (typeform_webhook w answers).2.any isUpdateDealEv = false) ∧
    (w.findPerson (parse_typeform_data answers).email = none →
      Event.crmCreateDeal (deal_title (parse_typeform_data answers)) ∈
        (typeform_webhook w answers).2 ∧
      (typeform_webhook w answers).2.any isUpdateDealEv = false) := by
  have htr : (typeform_webhook w answers).2
      = ([Event.confirmEmail (parse_typeform_data answers).email] ++
         (if (parse_typeform_data answers).file_url ≠ "" then
           [Event.fileDownload (parse_typeform_data answers).file_url]
          else []) ++
         analysis_events w (parse_typeform_data answers)) ++
        (crm_sync w (parse_typeform_data answers)).events := by
    simp only [typeform_webhook]
    rw [if_neg h]
  have hAfalse : ∀ x ∈ ([Event.confirmEmail
        (parse_typeform_data answers).email] ++
      (if (parse_typeform_data answers).file_url ≠ "" then
        [Event.fileDownload (parse_typeform_data answers).file_url]
       else []) ++
      analysis_events w (parse_typeform_data answers)),
      isCreateDealEv x = false ∧ isUpdateDealEv x = false := by
    intro x hx
    apply notCrm_not_deal
    simp only [List.mem_append] at hx
    rcases hx with (hx | hx) | hx
    · simp at hx
      subst hx
      rfl
    · revert hx
      split <;> intro hx <;> simp at hx
      subst hx
      rfl
    · exact analysis_events_not_crm w _ x hx
  have hanyA : ∀ q : Event → Bool, (∀ x ∈ ([Event.confirmEmail
        (parse_typeform_data answers).email] ++
      (if (parse_typeform_data answers).file_url ≠ "" then
        [Event.fileDownload (parse_typeform_data answers).file_url]
       else []) ++
      analysis_events w (parse_typeform_data answers)), q x = false) →
      ([Event.confirmEmail (parse_typeform_data answers).email] ++
      (if (parse_typeform_data answers).file_url ≠ "" then
        [Event.fileDownload (parse_typeform_data answers).file_url]
       else []) ++
      analysis_events w (parse_typeform_data answers)).any q = false := by
    intro q hq
    rw [List.any_eq_false]
    intro x hx
    simp [hq x hx]
  refine ⟨?_, ?_, ?_⟩
  · intro pid d rest hw hd
    have hcrm : (crm_sync w (parse_typeform_data answers)).events =
        [Event.crmFindPerson (parse_typeform_data answers).email,
         Event.crmGetDeals pid PIPELINE_ID,
         Event.crmUpdateDeal d.id (deal_title (parse_typeform_data answers)),
         Event.crmAddNote d.id
           (update_note (effective_vacancy w (parse_typeform_data answers))
             (parse_typeform_data answers).file_url
             (analysis_summary w (parse_typeform_data answers)))] := by
      simp only [crm_sync, hw, hd]
    constructor
    · rw [htr, hcrm]
      simp
    · rw [htr, List.any_append, hcrm]
      rw [hanyA isCreateDealEv (fun x hx => (hAfalse x hx).1)]
      simp [isCreateDealEv]
  · intro pid hw hd
    have hcrm : (crm_sync w (parse_typeform_data answers)).events =
        (crm_create w (parse_typeform_data answers)
          (effective_vacancy w (parse_typeform_data answers))
          (analysis_summary w (parse_typeform_data answers))
          (deal_title (parse_typeform_data answers)) (some pid)
          [Event.crmFindPerson (parse_typeform_data answers).email,
           Event.crmGetDeals pid PIPELINE_ID]).events := by
      simp only [crm_sync, hw, hd]
    constructor
    · rw [htr, hcrm]
      simp [crm_create]
    · rw [htr, List.any_append, hcrm]
      rw [hanyA isUpdateDealEv (fun x hx => (hAfalse x hx).2)]
      have : ∀ e ∈ (crm_create w (parse_typeform_data answers)
          (effective_vacancy w (parse_typeform_data answers))
          (analysis_summary w (parse_typeform_data answers))
          (deal_title (parse_typeform_data answers)) (some pid)
          [Event.crmFindPerson (parse_typeform_data answers).email,
           Event.crmGetDeals pid PIPELINE_ID]).events,
          isUpdateDealEv e = false := by
        apply crm_create_events_not_update
        intro x hx
        simp at hx
        rcases hx with hx | hx <;> subst hx <;> rfl
      rw [List.any_eq_false.mpr (by intro x hx; simp [this x hx])]
      rfl
  · intro hw
    have hcrm : (crm_sync w (parse_typeform_data answers)).events =
        (crm_create w (parse_typeform_data answers)
          (effective_vacancy w (parse_typeform_data answers))
          (analysis_summary w (parse_typeform_data answers))
          (deal_title (parse_typeform_data answers)) none
          [Event.crmFindPerson (parse_typeform_data answers).email]).events
        := by
      simp only [crm_sync, hw]
    constructor
    · rw [htr, hcrm]
      simp [crm_create]
    · rw [htr, List.any_append, hcrm]
      rw [hanyA isUpdateDealEv (fun x hx => (hAfalse x hx).2)]
      have : ∀ e ∈ (crm_create w (parse_typeform_data answers)
          (effective_vacancy w (parse_typeform_data answers))
          (analysis_summary w (parse_typeform_data answers))
          (deal_title (parse_typeform_data answers)) none
          [Event.crmFindPerson (parse_typeform_data answers).email]).events,
          isUpdateDealEv e = false := by
        apply crm_create_events_not_update
        intro x hx
        simp at hx
        subst hx
        rfl
      rw [List.any_eq_false.mpr (by intro x hx; simp [this x hx])]
      rfl

/-- Witness for C3-as-amended: the stage-22 deal of `wB` is updated
and no deal is created. -/
theorem c3_amended_deal_reuse_witness :
    Event.crmUpdateDeal dStage22.id (deal_title (parse_typeform_data exB)) ∈
      (typeform_webhook wB exB).2 ∧
    (typeform_webhook wB exB).2.any isCreateDealEv = false :=
  (c3_amended_deal_reuse wB exB (by decide)).1 7 dStage22 [] rfl rfl

/-! ## C4: the length gate is strict -/

/-- A 50-character vacancy text. -/
def fifty_chars : String :=
  "01234567890123456789012345678901234567890123456789"

/-- Counterexample to C4: a vacancy text of exactly 50 characters does
not attempt the analysis — the source gate is `len(vacancy_text) > 50`,
so 50 characters skip the LLM call. -/
theorem c4_threshold_counterexample :
    (effective_vacancy wNone (parse_typeform_data
      [Answer.email "a@b.nl", Answer.long_text fifty_chars])).length = 50 ∧
    (typeform_webhook wNone
      [Answer.email "a@b.nl", Answer.long_text fifty_chars]).2.any isLlmCall
      = false := by
  exact ⟨rfl, rfl⟩

/-- C4 as amended: the analysis is attempted — an LLM-call event
appears in the trace — exactly when the submission passes email
validation and the resulting vacancy text is non-empty with length
strictly greater than 50; so 49 and 50 characters both skip, 51
attempts. -/
theorem c4_amended_threshold (w : World) (answers : List Answer) :
    ((typeform_webhook w answers).2.any isLlmCall = true) ↔
      (¬ ((parse_typeform_data answers).email = "" ∨
        ¬ (parse_typeform_data answers).email.data.contains '@') ∧
       effective_vacancy w (parse_typeform_data answers) ≠ "" ∧
       50 < (effective_vacancy w (parse_typeform_data answers)).length) := by
  by_cases h : (parse_typeform_data answers).email = "" ∨
      ¬ (parse_typeform_data answers).email.data.contains '@'
  · have h2 : (typeform_webhook w answers).2 = [] := by
      simp only [typeform_webhook]
      rw [if_pos h]
    rw [h2]
    simp only [List.any_nil]
    constructor
    · intro hco
      exact Bool.noConfusion hco
    · rintro ⟨hno, -⟩
      exact absurd h hno
  · have htr : (typeform_webhook w answers).2
        = [Event.confirmEmail (parse_typeform_data answers).email] ++
          (if (parse_typeform_data answers).file_url ≠ "" then
            [Event.fileDownload (parse_typeform_data answers).file_url]
           else []) ++
          analysis_events w (parse_typeform_data answers) ++
          (crm_sync w (parse_typeform_data answers)).events := by
      simp only [typeform_webhook]
      rw [if_neg h]
    have hcrm : (crm_sync w (parse_typeform_data answers)).events.any
        isLlmCall = false := by
      rw [List.any_eq_false]
      intro x hx
      simp [isCrm_not_llm x (crm_sync_events_crm w _ x hx)]
    have hfile : (if (parse_typeform_data answers).file_url ≠ "" then
        [Event.fileDownload (parse_typeform_data answers).file_url]
       else []).any isLlmCall = false := by
      split <;> simp [isLlmCall]
    rcases not_or.mp h with ⟨h1, h2⟩
    rw [not_not] at h2
    have h3 : '@' ∈ (parse_typeform_data answers).email.data := by
      simpa using h2
    rw [htr]
    simp only [List.any_append, hcrm, hfile, Bool.or_false,
      Bool.or_eq_true]
    rw [any_llm_analysis_events]
    simp [isLlmCall, h1, h3]

/-! ## Nurture processor (C9)

`get_deals_for_nurture` scans open deals of the target pipeline and
selects those due for the next nurture email.  Dates are modelled as
day numbers; `strptime` is abstracted by a `parseDate` function
(`none` = the `except: continue`).  `process_nurture_emails` sends an
email exactly for the selected deals, so the selection function is
where the dispatch invariants live. -/

/-- Nurture emails only go to deals in this stage (src line 76). -/
def NURTURE_ACTIVE_STAGE : Nat := 21

/-- A deal as seen by the nurture scan, with its custom fields:
`rapport_verzonden` (sequence start date string, `none` = unset),
`sequence_status` and `laatste_email` (last sent step, e.g.
`"Email 3"`, `""` = none yet). -/
structure NurtureDeal where
  id : Nat
  title : String
  person_id : Option Nat
  stage_id : Nat
  rapport_verzonden : Option String
  sequence_status : String
  laatste_email : String
  deriving DecidableEq

/-- One entry of the list `get_deals_for_nurture` returns. -/
structure DueEmail where
  deal_id : Nat
  deal_title : String
  person_id : Option Nat
  next_email : Nat
  days_since : Int
  deriving DecidableEq

/-- Python `str.replace` on the underlying character lists:
left-to-right, non-overlapping replacement of every occurrence of a
non-empty pattern.  The fuel argument (instantiated with the list
length, which each step consumes at least one of) keeps the recursion
structural so that concrete instances evaluate in the kernel. -/
def replace_go (pat rep : List Char) : Nat → List Char → List Char
  | _, [] => []
  | 0, l => l
  | fuel + 1, c :: rest =>
    if pat.isPrefixOf (c :: rest) ∧ pat ≠ [] then
      rep ++ replace_go pat rep fuel (rest.drop (pat.length - 1))
    else c :: replace_go pat rep fuel rest

/-- Python `s.replace(pat, rep)`. -/
def py_replace (s pat rep : String) : String :=
  String.mk (replace_go pat.data rep.data s.data.length s.data)

/-- Python `int(s)` restricted to the unsigned digit strings the
`"Email N"` enum values produce; `none` models the `ValueError` of
anything else. -/
def py_int? (s : String) : Option Nat :=
  if s.data ≠ [] ∧ s.data.all Char.isDigit then
    some (s.data.foldl (fun n c => n * 10 + (c.toNat - 48)) 0)
  else none

/-- Parsing of the `laatste_email` field (src lines 1479-1484):
`int(laatste_email.replace('Email ', ''))` with `0` on any failure. -/
def parse_laatste_email (s : String) : Nat :=
  if s = "" then 0
  else (py_int? (py_replace s "Email " "")).getD 0

/-- The day offsets of `EMAIL_SCHEDULE` (src lines 63-72); `999` is the
source's default for a missing step. -/
def email_schedule_day : Nat → Nat
  | 1 => 1
  | 2 => 3
  | 3 => 5
  | 4 => 8
  | 5 => 11
  | 6 => 14
  | 7 => 21
  | 8 => 30
  | _ => 999

/-- Statuses that halt the sequence (src line 1467). -/
def halted_statuses : List String :=
  ["Completed", "Gepauzeerd", "Voltooid", "Responded", "Unsubscribed"]

/-- The per-deal body of the scan loop of `get_deals_for_nurture`
(src lines 1451-1503), as the optional due-email it contributes. -/
def nurture_check (parseDate : String → Option Nat) (today : Nat)
    (deal : NurtureDeal) : Option DueEmail :=
  if deal.stage_id ≠ NURTURE_ACTIVE_STAGE then none
  else
    match deal.rapport_verzonden with
    | none => none
    | some ds =>
      if ds = "" then none
      else if deal.sequence_status ∈ halted_statuses then none
      else
        match parseDate ds with
        | none => none
        | some rd =>
          let days_since : Int := (today : Int) - (rd : Int)
          let next_email := parse_laatste_email deal.laatste_email + 1
          if next_email ≤ 8 then
            if (email_schedule_day next_email : Int) ≤ days_since then
              some { deal_id := deal.id, deal_title := deal.title,
                     person_id := deal.person_id, next_email := next_email,
                     days_since := days_since }
            else none
          else none

/-- Embedding of `get_deals_for_nurture` (src lines 1425-1510). -/
def get_deals_for_nurture (parseDate : String → Option Nat) (today : Nat)
    (deals : List NurtureDeal) : List DueEmail :=
  deals.filterMap (nurture_check parseDate today)

/-- C9: every deal selected by the nurture processor satisfies the
sequence invariants: the selected step is the last sent step plus one;
the deal sits in the active nurture stage; its sequence status is none
of the halting ones (completed, paused, responded, ...); and the
configured day offset of the selected step has elapsed since the
sequence start date. -/
theorem c9_nurture_invariants (parseDate : String → Option Nat)
    (today : Nat) (deals : List NurtureDeal) (d : DueEmail)
    (hmem : d ∈ get_deals_for_nurture parseDate today deals) :
    ∃ deal ∈ deals,
      nurture_check parseDate today deal = some d ∧
      d.next_email = parse_laatste_email deal.laatste_email + 1 ∧
      d.next_email ≤ 8 ∧
      deal.stage_id = NURTURE_ACTIVE_STAGE ∧
      deal.sequence_status ∉ halted_statuses ∧
      ∃ ds rd, deal.rapport_verzonden = some ds ∧ parseDate ds = some rd ∧
        (email_schedule_day d.next_email : Int) ≤ (today : Int) - rd := by
  rw [get_deals_for_nurture, List.mem_filterMap] at hmem
  rcases hmem with ⟨deal, hdeal, hchk⟩
  refine ⟨deal, hdeal, hchk, ?_⟩
  simp only [nurture_check] at hchk
  split at hchk
  · exact Option.noConfusion hchk
  · rename_i hstage
    rw [not_ne_iff] at hstage
    split at hchk
    · exact Option.noConfusion hchk
    · rename_i ds hrv
      split at hchk
      · exact Option.noConfusion hchk
      · split at hchk
        · exact Option.noConfusion hchk
        · rename_i hds hstat
          split at hchk
          · exact Option.noConfusion hchk
          · rename_i rd hpd
            split at hchk
            · split at hchk
              · rename_i hle8 hday
                injection hchk with hchk
                subst hchk
                exact ⟨rfl, hle8, hstage, hstat, ds, rd, hrv, hpd, hday⟩
              · exact Option.noConfusion hchk
            · exact Option.noConfusion hchk

/-- A date parser for the witness: only knows one date. -/
def pd0 : String → Option Nat := fun s =>
  if s = "2025-01-01" then some 0 else none

/-- A concrete deal due for nurture step 2 on day 3. -/
def nd0 : NurtureDeal :=
  { id := 1, title := "Vacature Analyse - Monteur - Acme BV",
    person_id := some 5, stage_id := 21,
    rapport_verzonden := some "2025-01-01",
    sequence_status := "Actief", laatste_email := "Email 1" }

/-- The due-email entry expected for `nd0` on day 3. -/
def due0 : DueEmail :=
  { deal_id := 1, deal_title := "Vacature Analyse - Monteur - Acme BV",
    person_id := some 5, next_email := 2, days_since := 3 }

/-- Witness for C9: on day 3 the deal that last received step 1 is
selected for step 2, and the invariants hold for it. -/
theorem c9_nurture_invariants_witness :
    ∃ deal ∈ [nd0],
      nurture_check pd0 3 deal = some due0 ∧
      due0.next_email = parse_laatste_email deal.laatste_email + 1 ∧
      due0.next_email ≤ 8 ∧
      deal.stage_id = NURTURE_ACTIVE_STAGE ∧
      deal.sequence_status ∉ halted_statuses ∧
      ∃ ds rd, deal.rapport_verzonden = some ds ∧ pd0 ds = some rd ∧
        (email_schedule_day due0.next_email : Int) ≤ (3 : Int) - rd :=
  c9_nurture_invariants pd0 3 [nd0] due0 (by decide)

end Kandidatentekort
